import Mathlib

/-!
Shallow embedding of the x86 segment-selector module
(`src/shared/segmentation.rs`): the `SegmentSelector` bitflags value type,
its constructors `new` / `from_raw`, the bitflags operations `contains`
and bitwise-or, the `fmt::Display` rendering, and the code-segment
register reader `cs`, together with theorems about them.

`u16` values are embedded as `Nat`, with an explicit `% 65536` where the
source's 16-bit arithmetic can overflow (the shift in `new`).
-/

namespace Segmentation

/-- Modelled from the spec: the privilege-level enumeration
(`shared::PrivilegeLevel`) is an external collaborator not included in the
given source; the spec fixes it as exactly four ring values, 0 (most
privileged) to 3 (least), cast to an unsigned 16-bit value by `new`. -/
inductive PrivilegeLevel where
| ring0
| ring1
| ring2
| ring3
deriving DecidableEq

/-- The value of the `rpl as u16` cast in `SegmentSelector::new`. -/
def PrivilegeLevel.toNat : PrivilegeLevel → Nat
| .ring0 => 0
| .ring1 => 1
| .ring2 => 2
| .ring3 => 3

/-- The `bitflags!`-generated value type: a `u16` field `bits`.
Equality is the derived field-wise equality on `bits`. -/
structure SegmentSelector where
bits : Nat
deriving DecidableEq

/-- `const RPL_0 = 0b00` -/
def RPL_0 : SegmentSelector := ⟨0b00⟩

/-- `const RPL_1 = 0b01` -/
def RPL_1 : SegmentSelector := ⟨0b01⟩

/-- `const RPL_2 = 0b10` -/
def RPL_2 : SegmentSelector := ⟨0b10⟩

/-- `const RPL_3 = 0b11` -/
def RPL_3 : SegmentSelector := ⟨0b11⟩

/-- `const TI_GDT = 0 << 3` -/
def TI_GDT : SegmentSelector := ⟨0 <<< 3⟩

/-- `const TI_LDT = 1 << 3` -/
def TI_LDT : SegmentSelector := ⟨1 <<< 3⟩

/-- `SegmentSelector::new(index, rpl)`: `index << 3 | (rpl as u16)` in
`u16` arithmetic, so the shifted index is taken modulo `2^16`. -/
def SegmentSelector.new (index : Nat) (rpl : PrivilegeLevel) : SegmentSelector :=
⟨((index <<< 3) % 65536) ||| rpl.toNat⟩

/-- `SegmentSelector::from_raw(bits)`: stores the pattern verbatim. -/
def SegmentSelector.from_raw (bits : Nat) : SegmentSelector :=
⟨bits⟩

/-- The `bitflags!`-generated `contains`: `(*self & other) == other`. -/
def SegmentSelector.contains (s f : SegmentSelector) : Bool :=
s.bits &&& f.bits == f.bits

/-- The `bitflags!`-generated `BitOr`: bitwise or of the raw patterns. -/
def SegmentSelector.or (s f : SegmentSelector) : SegmentSelector :=
⟨s.bits ||| f.bits⟩

/-- The `fmt::Display` implementation: writes
`"Index {} in {}, {}{}{}{}"` with the index `self.bits >> 3`, the table
name chosen by `contains(TI_LDT)`, and one ring fragment per privilege
pattern, each emitted when `contains(RPL_i)` holds. -/
def fmtDisplay (s : SegmentSelector) : String :=
"Index " ++ toString (s.bits >>> 3) ++ " in "
++ (if s.contains TI_LDT then "LDT Table" else "GDT Table") ++ ", "
++ (if s.contains RPL_0 then "Ring 0 segment selector." else "")
++ (if s.contains RPL_1 then "Ring 1 segment selector." else "")
++ (if s.contains RPL_2 then "Ring 2 segment selector." else "")
++ (if s.contains RPL_3 then "Ring 3 segment selector." else "")

/-- Substring containment: `frag` occurs contiguously inside `s`. -/
def strContainsFrag (s frag : String) : Prop :=
∃ a b : String, s = a ++ frag ++ b

/-- The processor state touched by this module: the six segment
registers, each holding a raw 16-bit selector pattern. -/
structure Machine where
cs : Nat
ds : Nat
es : Nat
fs : Nat
gs : Nat
ss : Nat

/-- `set_cs`: the far-return trampoline; its observable effect on the
register state is to load `cs` with the selector's raw pattern. -/
def set_cs (sel : SegmentSelector) (m : Machine) : Machine :=
{ m with cs := sel.bits }

/-- `cs()`: reads the live code-segment register into a
`SegmentSelector` via `from_raw`, leaving the machine state unchanged. -/
def cs (m : Machine) : SegmentSelector × Machine :=
(SegmentSelector.from_raw m.cs, m)

/- ------------------------------------------------------------------ -/
/- Helper lemmas                                                      -/
/- ------------------------------------------------------------------ -/

theorem PrivilegeLevel.toNat_lt (rpl : PrivilegeLevel) : rpl.toNat < 4 := by
cases rpl <;> decide

theorem lor_low (a r : Nat) (ha : a % 8 = 0) (hr : r < 8) : a ||| r = a + r := by
have h2 : (2 : Nat) ^ 3 = 8 := by norm_num
have h3 := Nat.mul_add_lt_is_or (show r < 2 ^ 3 by omega) (a / 8)
rw [h2] at h3
have h4 : 8 * (a / 8) = a := by omega
rw [h4] at h3
exact h3.symm

theorem new_bits (index : Nat) (rpl : PrivilegeLevel) :
    (SegmentSelector.new index rpl).bits = (index * 8) % 65536 + rpl.toNat := by
have hr := rpl.toNat_lt
have hs : index <<< 3 = index * 8 := by rw [Nat.shiftLeft_eq]
show ((index <<< 3) % 65536) ||| rpl.toNat = _
rw [hs, lor_low ((index * 8) % 65536) rpl.toNat (by omega) (by omega)]

end Segmentation

namespace Segmentation

/- ------------------------------------------------------------------ -/
/- Claims                                                             -/
/- ------------------------------------------------------------------ -/

/-- Claim C1: for every index in [0, 8191] and every privilege level,
`new(index, privilege)` followed by extracting `(raw >> 3, raw & 0b11)`
yields exactly `(index, privilege)`. -/
theorem new_extract_roundtrip (index : Nat) (rpl : PrivilegeLevel)
    (h : index ≤ 8191) :
    (SegmentSelector.new index rpl).bits >>> 3 = index ∧
    (SegmentSelector.new index rpl).bits &&& 0b11 = rpl.toNat := by
have hr := rpl.toNat_lt
have hb := new_bits index rpl
have hm : (index * 8) % 65536 = index * 8 := Nat.mod_eq_of_lt (by omega)
rw [hm] at hb
constructor
· rw [hb, Nat.shiftRight_eq_div_pow]
  have h8 : (2 : Nat) ^ 3 = 8 := by norm_num
  rw [h8]
  omega
· rw [hb]
  have h3 : (0b11 : Nat) = 2 ^ 2 - 1 := by norm_num
  rw [h3, Nat.and_pow_two_sub_one_eq_mod]
  have h4 : (2 : Nat) ^ 2 = 4 := by norm_num
  rw [h4]
  omega

/-- Witness for C1 at index 8191, privilege ring 3. -/
theorem new_extract_roundtrip_witness :
    8191 ≤ 8191 ∧
    ((SegmentSelector.new 8191 PrivilegeLevel.ring3).bits >>> 3 = 8191 ∧
     (SegmentSelector.new 8191 PrivilegeLevel.ring3).bits &&& 0b11 = 3) :=
⟨by decide, new_extract_roundtrip 8191 PrivilegeLevel.ring3 (by decide)⟩

/-- Claim C2 (evaluation at the failing inputs): the local-table
predicate `contains(TI_LDT)` tests bit 3, not bit 2, of the raw
pattern: the selector with raw value `0b0100` (bit 2 set) does not
satisfy it, while the selector with raw value `0b1000` (bit 2 clear,
bit 3 set) does. -/
theorem ti_predicate_tests_bit3 :
    (SegmentSelector.from_raw 0b0100).contains TI_LDT = false ∧
    (SegmentSelector.from_raw 0b1000).contains TI_LDT = true := by
decide

/-- Claim C3 (evaluation at the failing inputs): constructing with the
global-table flag at odd index 1 yields a selector whose local-table
predicate is true (bit 3 of the shifted index coincides with `TI_LDT`),
and constructing with the local-table flag yields a selector whose
global-table predicate `contains(TI_GDT)` is still true (`TI_GDT = 0`
makes it vacuous). -/
theorem table_flag_not_independent :
    ((SegmentSelector.new 1 PrivilegeLevel.ring0).or TI_GDT).contains TI_LDT = true ∧
    ((SegmentSelector.new 2 PrivilegeLevel.ring0).or TI_LDT).contains TI_GDT = true := by
decide

/-- Claim C4 (evaluation at the failing input): formatting
`new(5, ring 3)` or-ed with `TI_LDT` renders all four ring fragments,
Ring 0, Ring 1 and Ring 2 included, because `contains` is a subset test
and `RPL_0` has no bits set. -/
theorem fmtDisplay_new5_ring3_ldt_eval :
    fmtDisplay ((SegmentSelector.new 5 PrivilegeLevel.ring3).or TI_LDT) =
      "Index 5 in LDT Table, Ring 0 segment selector.Ring 1 segment selector.Ring 2 segment selector.Ring 3 segment selector." := by
rfl

/-- Claim C5: for every 16-bit value, `from_raw(bits)` followed by the
raw-value accessor returns the bits unchanged, with no masking or
normalization. -/
theorem from_raw_bits_id (b : Nat) (_h : b < 65536) :
    (SegmentSelector.from_raw b).bits = b :=
rfl

/-- Witness for C5 at the raw value 0xBEEF. -/
theorem from_raw_bits_id_witness :
    0xBEEF < 65536 ∧ (SegmentSelector.from_raw 0xBEEF).bits = 0xBEEF :=
⟨by decide, from_raw_bits_id 0xBEEF (by decide)⟩

/-- Claim C6: two `SegmentSelector` values are equal exactly when their
raw 16-bit patterns are identical; no normalization collapses distinct
raw patterns. -/
theorem eq_iff_bits_eq (a b : SegmentSelector) : a = b ↔ a.bits = b.bits := by
constructor
· intro h
  rw [h]
· intro h
  cases a
  cases b
  simpa using h

/-- Claim C7 counterexample: at index 8192, which exceeds 8191, the
shifted index contributes nothing to the raw value (the 16-bit shift
discards it entirely: the raw value equals the bare privilege), so in
particular no shifted index bit lands in the table-indicator position
(bit 2) or the privilege positions (bits 1-0). -/
theorem new_overflow_no_overlap_cex :
    8191 < 8192 ∧
    (SegmentSelector.new 8192 PrivilegeLevel.ring1).bits = 1 ∧
    (SegmentSelector.new 8192 PrivilegeLevel.ring1).bits &&& 0b111 = 1 := by
decide

/-- Claim C7 (amended): `new` does not mask or reject index values wider
than 13 bits, but with 16-bit arithmetic the shift discards the high
index bits rather than overlapping the table-indicator and privilege
positions: for every index in (8191, 65536) and every privilege, the
stored index field `raw >>> 3` differs from the requested index, while
bits 2-0 of the raw value hold exactly the privilege. -/
theorem new_overflow_discards_high_bits (index : Nat) (rpl : PrivilegeLevel)
    (h1 : 8191 < index) (h2 : index < 65536) :
    (SegmentSelector.new index rpl).bits >>> 3 ≠ index ∧
    (SegmentSelector.new index rpl).bits &&& 0b111 = rpl.toNat := by
have hr := rpl.toNat_lt
have hb := new_bits index rpl
constructor
· rw [hb, Nat.shiftRight_eq_div_pow]
  have h8 : (2 : Nat) ^ 3 = 8 := by norm_num
  rw [h8]
  omega
· rw [hb]
  have h7 : (0b111 : Nat) = 2 ^ 3 - 1 := by norm_num
  rw [h7, Nat.and_pow_two_sub_one_eq_mod]
  have h8 : (2 : Nat) ^ 3 = 8 := by norm_num
  rw [h8]
  omega

/-- Witness for the amended C7 at index 8192, privilege ring 1. -/
theorem new_overflow_discards_high_bits_witness :
    8191 < 8192 ∧ 8192 < 65536 ∧
    ((SegmentSelector.new 8192 PrivilegeLevel.ring1).bits >>> 3 ≠ 8192 ∧
     (SegmentSelector.new 8192 PrivilegeLevel.ring1).bits &&& 0b111 = 1) :=
⟨by decide, by decide,
 new_overflow_discards_high_bits 8192 PrivilegeLevel.ring1 (by decide) (by decide)⟩

/-- Claim C8: the code-segment reader has no effect on the machine
state, always succeeds, and reading twice with no reload in between
returns the identical value both times. -/
theorem cs_pure_idempotent (m : Machine) :
    (cs m).2 = m ∧ (cs ((cs m).2)).1 = (cs m).1 :=
⟨rfl, rfl⟩

/-- Claim C9: because `RPL_0` has no bits set, `contains(RPL_0)` is true
for every selector, and consequently every formatted selector string
contains the fragment "Ring 0 segment selector.". -/
theorem rpl0_always_contained (s : SegmentSelector) :
    s.contains RPL_0 = true ∧
    strContainsFrag (fmtDisplay s) "Ring 0 segment selector." := by
have h0 : s.contains RPL_0 = true := by
  simp [SegmentSelector.contains, RPL_0]
refine ⟨h0, ?_⟩
refine ⟨"Index " ++ toString (s.bits >>> 3) ++ " in "
  ++ (if s.contains TI_LDT then "LDT Table" else "GDT Table") ++ ", ",
  (if s.contains RPL_1 then "Ring 1 segment selector." else "")
  ++ (if s.contains RPL_2 then "Ring 2 segment selector." else "")
  ++ (if s.contains RPL_3 then "Ring 3 segment selector." else ""), ?_⟩
simp only [fmtDisplay, h0, if_true]
simp [String.append_assoc]

/-- Claim C10: because `TI_LDT` is defined at bit 3, which coincides
with bit 0 of the shifted index, for every odd index and every
privilege level the selector built by `new` satisfies
`contains(TI_LDT)` even though no table flag was requested. -/
theorem new_odd_index_contains_ti_ldt (index : Nat) (rpl : PrivilegeLevel)
    (h : index % 2 = 1) :
    (SegmentSelector.new index rpl).contains TI_LDT = true := by
have hr := rpl.toNat_lt
have hb := new_bits index rpl
show ((SegmentSelector.new index rpl).bits &&& TI_LDT.bits == TI_LDT.bits) = true
have hti : TI_LDT.bits = 8 := by decide
rw [hti, hb]
have h8 : (2 : Nat) ^ 3 = 8 := by norm_num
have hand : ((index * 8) % 65536 + rpl.toNat) &&& 8 = 8 := by
  have htp := Nat.and_two_pow ((index * 8) % 65536 + rpl.toNat) 3
  rw [h8] at htp
  rw [htp, Nat.testBit_to_div_mod]
  have hd : ((index * 8) % 65536 + rpl.toNat) / 2 ^ 3 % 2 = 1 := by
    rw [h8]
    omega
  rw [hd]
  simp
rw [hand]
simp

/-- Witness for C10 at index 5, privilege ring 0. -/
theorem new_odd_index_contains_ti_ldt_witness :
    5 % 2 = 1 ∧
    (SegmentSelector.new 5 PrivilegeLevel.ring0).contains TI_LDT = true :=
⟨by decide, new_odd_index_contains_ti_ldt 5 PrivilegeLevel.ring0 (by decide)⟩

end Segmentation
